import Mathlib

/-!
Verification of the clocktick SDK core: the inbound webhook
authentication-and-dispatch pipeline, the outbound job-scheduling
payload protocol, the route tree built by `createRouter`/`_write`,
the `DeltaBuilder`/`CreateJobProperties` job property builders and
`deleteJob`.

The definitions below are shallow embeddings of the JavaScript source
(`src/index.js` and the noble-ed25519 variant of the same module, plus
`src/properties.ts` and `src/typed.ts`).  External collaborators that are
not code of this repository (WebCrypto AES-GCM, ed25519 verification,
msgpack, base64, `JSON.parse`) are taken as parameters; everything the
repository itself does (envelope format, header handling, staleness
check, route walking, key-stack management, field mutation) is
translated statement by statement.  JavaScript exceptions are modelled
with `Option`/`Except` (`none` = the statement throws), JS string
splitting and joining with explicit char-list functions, and JS object
mutation (for the job-properties claims) with an explicit heap.
-/

namespace Clocktick

/-! ## JavaScript string primitives -/

/-- Model of `String.prototype.split` with a single-character separator,
accumulator-based, matching JS semantics (`"".split(".") = [""]`,
separators at the ends produce empty segments). -/
def jsSplitAux (sep : Char) : List Char → List Char → List (List Char)
  | [], acc => [acc.reverse]
  | c :: cs, acc =>
    if c = sep then acc.reverse :: jsSplitAux sep cs []
    else jsSplitAux sep cs (c :: acc)

/-- JS `s.split(sep)` for a one-character separator. -/
def jsSplit (sep : Char) (s : String) : List String :=
  (jsSplitAux sep s.data []).map List.asString

/-- JS `arr.join(".")` on a string array. -/
def joinDots : List String → String
  | [] => ""
  | k :: rest => rest.foldl (fun a s => a ++ "." ++ s) k

/-- The path computation of `_write` for a leaf: `let k = keyStack.join(".");
if (k === "") k = key; else k += "." + key;`. -/
def joinKey (ks : List String) (key : String) : String :=
  let k := joinDots ks
  if k = "" then key else k ++ "." ++ key

/-- JS `parseInt(s, 10)`: skip leading whitespace, optional sign, then a
maximal run of decimal digits; `none` models `NaN` (no digits). -/
def jsParseInt10 (s : String) : Option Int :=
  let cs := s.data.dropWhile (fun c => c = ' ' ∨ c = '\t' ∨ c = '\n' ∨ c = '\r')
  let signAndDigits : Int × List Char :=
    match cs with
    | '-' :: r => (-1, r)
    | '+' :: r => (1, r)
    | _ => (1, cs)
  let ds := signAndDigits.2.takeWhile Char.isDigit
  if ds = [] then none
  else some (signAndDigits.1 * ((ds.foldl (fun a c => a * 10 + (c.toNat - 48)) 0 : Nat) : Int))

/-- Value of one hex digit, `none` for a non-hex character. -/
def hexDigVal (c : Char) : Option Nat :=
  if 48 ≤ c.toNat ∧ c.toNat ≤ 57 then some (c.toNat - 48)
  else if 97 ≤ c.toNat ∧ c.toNat ≤ 102 then some (c.toNat - 87)
  else if 65 ≤ c.toNat ∧ c.toNat ≤ 70 then some (c.toNat - 55)
  else none

/-- JS `parseInt(pair, 16)` fed to `Uint8Array`: a leading non-hex character
gives `NaN`, which `Uint8Array` stores as `0`; a valid first digit followed
by an invalid second parses just the first digit. -/
def hexPairVal (a : Char) (b : Option Char) : Nat :=
  match hexDigVal a with
  | none => 0
  | some va =>
    match b with
    | none => va
    | some bc =>
      match hexDigVal bc with
      | none => va
      | some vb => 16 * va + vb

/-- Bytes of `hex.match(/.{1,2}/g).map((b) => parseInt(b, 16))`, chunking the
string two characters at a time. -/
def hexChunks : List Char → List Nat
  | [] => []
  | [a] => [hexPairVal a none]
  | a :: b :: rest => hexPairVal a (some b) :: hexChunks rest

/-- The source's `fromHex`: `hex.match(/.{1,2}/g)` returns `null` on the
empty string, so `.map` throws (`none`); otherwise the chunked bytes. -/
def fromHexStr (s : String) : Option (List Nat) :=
  if s.data = [] then none else some (hexChunks s.data)

/-! ## Symmetric payload cipher: the envelope format

`encrypt` and `decrypt` from the source.  The AEAD itself
(`crypto.subtle.encrypt`/`decrypt`) and the base64 codec
(`toBase64Polyfill`/`fromBase64`) are platform collaborators, passed in as
parameters; the repository's own contribution is the
`base64(iv) ++ ":" ++ base64(ciphertext)` envelope and its parsing. -/

/-- Source `encrypt(key, data)`: the IV (normally 12 random bytes, or the
test-pinned `fixedIv`) is injected, the sealed bytes are
`sealA key iv data`, and the envelope is the colon-joined base64 pair. -/
def encryptEnvelope {K : Type} (b64e : List Nat → String)
    (sealA : K → List Nat → List Nat → List Nat)
    (key : K) (iv : List Nat) (data : List Nat) : String :=
  b64e iv ++ ":" ++ b64e (sealA key iv data)

/-- Source `decrypt(key, data)`: `data.split(":", 2)` (JS limit semantics:
at most the first two segments), throw on an empty/missing half, base64
decode both halves, then AEAD-open.  `none` models a throw or an
authentication failure. -/
def decryptEnvelope {K : Type} (b64d : String → Option (List Nat))
    (openA : K → List Nat → List Nat → Option (List Nat))
    (key : K) (data : String) : Option (List Nat) :=
  match (jsSplit ':' data).take 2 with
  | [ivStr, encStr] =>
    if ivStr = "" ∨ encStr = "" then none
    else
      match b64d ivStr, b64d encStr with
      | some ivB, some encB => openA key ivB encB
      | _, _ => none
  | _ => none

/-! ### Split/join lemmas for the envelope -/

theorem jsSplitAux_no_sep (sep : Char) (b acc : List Char) (h : sep ∉ b) :
    jsSplitAux sep b acc = [acc.reverse ++ b] := by
  induction b generalizing acc with
  | nil => simp [jsSplitAux]
  | cons c cs ih =>
    have hc : c ≠ sep := fun he => h (he ▸ List.mem_cons_self c cs)
    have hcs : sep ∉ cs := fun hm => h (List.mem_cons_of_mem c hm)
    simp [jsSplitAux, hc, ih _ hcs]

theorem jsSplitAux_sep_mid (sep : Char) (a b acc : List Char) (h : sep ∉ a) :
    jsSplitAux sep (a ++ sep :: b) acc =
      (acc.reverse ++ a) :: jsSplitAux sep b [] := by
  induction a generalizing acc with
  | nil => simp [jsSplitAux]
  | cons c cs ih =>
    have hc : c ≠ sep := fun he => h (he ▸ List.mem_cons_self c cs)
    have hcs : sep ∉ cs := fun hm => h (List.mem_cons_of_mem c hm)
    simp [jsSplitAux, hc, ih _ hcs]

theorem asString_data (s : String) : List.asString s.data = s := rfl

theorem string_append_data (s t : String) : (s ++ t).data = s.data ++ t.data := by
  cases s
  cases t
  rfl

theorem jsSplit_colon_join (x y : String)
    (hx : ':' ∉ x.data) (hy : ':' ∉ y.data) :
    jsSplit ':' (x ++ ":" ++ y) = [x, y] := by
  have hdata : (x ++ ":" ++ y).data = x.data ++ ':' :: y.data := by
    rw [string_append_data, string_append_data]
    have h1 : (":" : String).data = [':'] := rfl
    rw [h1, List.append_assoc]
    rfl
  unfold jsSplit
  rw [hdata, jsSplitAux_sep_mid ':' x.data y.data [] hx,
    jsSplitAux_no_sep ':' y.data [] hy]
  simp [asString_data]

/-! ## The handler tree

The nested structure a caller passes to `createRouter`: a JS object whose
entries (in insertion order, as `Object.entries` iterates them) are either
an async handler function, a `customEndpoint(endpoint, fnOrFns)` wrapper
(an object carrying `internalSym`), or a nested plain object.  A handler
carries its JS arity (`fn.length`, never consulted by the source), an
identifying tag, and its behaviour: `.ok` for a normal return, `.error`
for a thrown exception.  Handler arguments are opaque tokens (`Nat`). -/

mutual
inductive JTree : Type where
  | leaf (arity : Nat) (tag : Nat) (beh : List Nat → Except Unit Unit)
  | wrapped (endpoint : String) (child : JTree)
  | node (entries : JEntries)

inductive JEntries : Type where
  | nil
  | cons (key : String) (t : JTree) (rest : JEntries)
end

/-- A scheduling function registered by `_write`: its position in the
router object (the keys the user navigates, e.g. `router.a.c`), the
`job_type` string baked into `apiHandlerBuilder`, and the `endpoint_id`
it will send. -/
structure Reg where
  path : List String
  jobType : String
  endpoint : String
deriving DecidableEq, Repr

/-! ### `_write`: building the router object

`_write(apiKey, encryptionKey, endpointId, obj, fns, keyStack)` loops over
`Object.entries(fns)` and ends with an unconditional `keyStack.pop()`.
`processEntry` is one iteration of that loop; a recursive `_write` call is
its loop (`writeEntries`) followed by `List.dropLast` (the trailing
`pop()`; popping an empty JS array is a no-op, as is `dropLast` on `[]`).
The wrapper case calls `_write` on the singleton object
`{ [key]: customFns }` with the wrapper's endpoint and the same `obj`,
hence the same position. -/

mutual
def processEntry (eid : String) (pos : List String) (key : String) :
    JTree → List String → List Reg × List String
  | .leaf _ _ _, ks => ([⟨pos ++ [key], joinKey ks key, eid⟩], ks)
  | .wrapped e child, ks =>
    let r := processEntry e pos key child ks
    (r.1, r.2.dropLast)
  | .node sub, ks =>
    let r := writeEntries eid (pos ++ [key]) sub (ks ++ [key])
    (r.1, r.2.dropLast)
termination_by structural t _ => t

def writeEntries (eid : String) (pos : List String) :
    JEntries → List String → List Reg × List String
  | .nil, ks => ([], ks)
  | .cons key t rest, ks =>
    let r1 := processEntry eid pos key t ks
    let r2 := writeEntries eid pos rest r1.2
    (r1.1 ++ r2.1, r2.2)
termination_by structural es _ => es
end

/-- One full `_write` call: the entry loop followed by the trailing
`keyStack.pop()`. -/
def write (eid : String) (pos : List String) (es : JEntries) (ks : List String) :
    List Reg × List String :=
  let r := writeEntries eid pos es ks
  (r.1, r.2.dropLast)

/-- The scheduling functions `createRouter(apiKey, encryptionKey, publicKey,
defaultEndpointId, fns)` installs: `_write(..., defaultEndpointId, obj, fns, [])`. -/
def createRouterRegs (eid : String) (fns : JEntries) : List Reg :=
  (write eid [] fns []).1

/-! ## Inbound dispatch (`httpRoute`)

The noble-ed25519 variant of `httpRoute`, which contains the full
authentication pipeline (header handling, staleness check, hex decoding,
signature verification) before the shared body-decode/dispatch code. -/

/-- An inbound HTTP request: the two signature headers (absent = `null`
from `req.headers.get`) and the raw body text. -/
structure InboundReq where
  sigHeader : Option String
  tsHeader : Option String
  body : String

/-- What the request function returned by `httpRoute` produces: an HTTP
response with a status code, or an exception that escapes it (the
returned promise rejects and no response is produced). -/
inductive Outcome where
  | resp (status : Nat)
  | thrown
deriving DecidableEq, Repr

/-- JS string coercion of a possibly-`null` header, as in
`timestamp + body` and `parseInt(timestamp, 10)`: `null` becomes `"null"`. -/
def tsCoerce : Option String → String
  | some s => s
  | none => "null"

/-- The staleness test: `currentTime - parseInt(timestamp, 10) > 300`.
A `NaN` request time (missing or non-numeric header) makes the comparison
false, so the request is not rejected as stale. -/
def isStale (now : Int) (ts : Option String) : Bool :=
  match jsParseInt10 (tsCoerce ts) with
  | some rt => decide (now - rt > 300)
  | none => false

/-- The source's `verifySignature(publicKey, message, signature)`:
hex-decode the public key, then the signature (each throwing on
`null`/empty input — `none` result), then run the ed25519 verifier
(injected; the source's `try/catch` maps a verifier exception to
`false`, so a `Bool`-valued parameter is exact). -/
def verifySignatureM (verify : List Nat → String → List Nat → Bool)
    (publicKey : String) (message : String) (signature : Option String) :
    Option Bool :=
  match fromHexStr publicKey with
  | none => none
  | some pkB =>
    match signature with
    | none => none
    | some sg =>
      match fromHexStr sg with
      | none => none
      | some sgB => some (verify sgB message pkB)

/-- Lookup of a key among an object's entries (first match, in insertion
order; JS object keys are unique anyway). -/
def entLookup (k : String) : JEntries → Option JTree
  | .nil => none
  | .cons k' t rest => if k' = k then some t else entLookup k rest

/-- JS property lookup `fn[part]` on a tree value: object entries by key,
the two own properties of a wrapper object (`fnOrFns` is the only
string-keyed one), nothing on a function. -/
def jsLookup : JTree → String → Option JTree
  | .node es, k => entLookup k es
  | .wrapped _ c, k => if k = "fnOrFns" then some c else none
  | .leaf _ _ _, _ => none

/-- The unwrap step inside the resolution loop: `if (typeof fn === "object"
&& fn[internalSym]) fn = fn.fnOrFns`. -/
def unwrapOnce : JTree → JTree
  | .wrapped _ c => c
  | t => t

/-- The resolution loop of `httpRoute`: walk `fnParts`, returning `none`
(HTTP 404) when a segment is missing, unwrapping a `customEndpoint`
object after each step. -/
def resolveLoop : JTree → List String → Option JTree
  | t, [] => some t
  | t, p :: ps =>
    match jsLookup t p with
    | none => none
    | some t' => resolveLoop (unwrapOnce t') ps

/-- The request function returned by `httpRoute(router)` (noble-ed25519
variant), step by step.  External collaborators are parameters: `verify`
(ed25519), `now` (`Math.floor(Date.now() / 1000)`), `parseBody`
(`JSON.parse` plus the `{type, encrypted_data}` destructuring; `none` =
throw), `b64d`/`openA`/`key` (base64 decode, AEAD open, derived key, fed
to the source's `decrypt`), and `msgpackDec` (msgpack `decode`).  The
result is the outcome together with the tags of the handlers invoked. -/
def httpRouteReq {K : Type}
    (verify : List Nat → String → List Nat → Bool)
    (now : Int)
    (parseBody : String → Option (Option String × Option String))
    (b64d : String → Option (List Nat))
    (openA : K → List Nat → List Nat → Option (List Nat))
    (msgpackDec : List Nat → Option (List Nat))
    (key : K) (publicKey : String) (fns : JEntries) (req : InboundReq) :
    Outcome × List Nat :=
  let message := tsCoerce req.tsHeader ++ req.body
  if isStale now req.tsHeader then (.resp 401, [])
  else
    match verifySignatureM verify publicKey message req.sigHeader with
    | none => (.thrown, [])
    | some false => (.resp 401, [])
    | some true =>
      match parseBody req.body with
      | none => (.thrown, [])
      | some (type?, encd?) =>
        let dataOpt :=
          match encd? with
          | none => none
          | some ed =>
            match decryptEnvelope b64d openA key ed with
            | none => none
            | some bs => msgpackDec bs
        match dataOpt with
        | none => (.resp 400, [])
        | some args =>
          match type? with
          | none => (.thrown, [])
          | some ty =>
            match resolveLoop (.node fns) (jsSplit '.' ty) with
            | some (.leaf _ tag beh) =>
              match beh args with
              | .ok _ => (.resp 204, [tag])
              | .error _ => (.thrown, [tag])
            | _ => (.resp 404, [])

/-! ## Delta builder (`properties.ts`)

`DeltaBuilder` keeps six private counters, one per time unit, and each
unit method adds its argument to the matching counter (`this.#years +=
years`, etc.) and returns `this`.  Counters are JS numbers; integers model
the values the SDK actually sends. -/

structure DeltaBuilder where
  years : Int
  months : Int
  days : Int
  hours : Int
  minutes : Int
  seconds : Int
deriving DecidableEq, Repr

/-- A fresh `new DeltaBuilder()`: all counters zero. -/
def DeltaBuilder.init : DeltaBuilder := ⟨0, 0, 0, 0, 0, 0⟩

/-- The plain object `toObject()` returns, with the same six fields. -/
structure DeltaBody where
  years : Int
  months : Int
  days : Int
  hours : Int
  minutes : Int
  seconds : Int
deriving DecidableEq, Repr

/-- `DeltaBuilder.prototype.toObject`. -/
def DeltaBuilder.toObject (d : DeltaBuilder) : DeltaBody :=
  ⟨d.years, d.months, d.days, d.hours, d.minutes, d.seconds⟩

/-- The six unit methods, named by the unit they add to. -/
inductive TimeUnit where
  | years
  | months
  | days
  | hours
  | minutes
  | seconds
deriving DecidableEq, Repr

/-- One unit-method call `d.years(n)` / `d.months(n)` / …: add `n` to the
corresponding counter. -/
def DeltaBuilder.call (d : DeltaBuilder) : TimeUnit × Int → DeltaBuilder
  | (.years, n) => { d with years := d.years + n }
  | (.months, n) => { d with months := d.months + n }
  | (.days, n) => { d with days := d.days + n }
  | (.hours, n) => { d with hours := d.hours + n }
  | (.minutes, n) => { d with minutes := d.minutes + n }
  | (.seconds, n) => { d with seconds := d.seconds + n }

/-- A chained sequence of unit-method calls on a builder. -/
def DeltaBuilder.calls (d : DeltaBuilder) (cs : List (TimeUnit × Int)) : DeltaBuilder :=
  cs.foldl DeltaBuilder.call d

/-- Total of the values passed to one unit's method in a call sequence. -/
def unitTotal (u : TimeUnit) (cs : List (TimeUnit × Int)) : Int :=
  ((cs.filter (fun c => c.1 = u)).map (fun c => c.2)).sum

/-! ## `CreateJobProperties` and the scheduling call (heap model)

`CreateJobProperties` holds `#customId`, `startFrom` and `runEvery`;
`toObject()` returns a freshly allocated
`{ id, data: { start_from, run_every } }` (the `data` literal is new on
every call, while `start_from`/`run_every` are shared references), and the
function built by `apiHandlerBuilder` mutates that `data` object in place
(`data.endpoint_id = …; data.encrypted_data = …; data.job_type = …`)
before POSTing it.  To settle whether those writes can leak back into the
properties object, JS objects are modelled with an explicit heap: object
identities are addresses, field writes update the heap. -/

/-- A JS value stored in an object field: a string, `null`, or a reference
to another object. -/
inductive JsVal where
  | vstr (s : String)
  | vnull
  | vref (a : Nat)
deriving DecidableEq, Repr

/-- A JS object: its fields in insertion order. -/
def JsObj := List (String × JsVal)

/-- Property read `o[k]` (first matching field). -/
def objGet : JsObj → String → Option JsVal
  | [], _ => none
  | (k', v') :: rest, k => if k' = k then some v' else objGet rest k

/-- Property write `o[k] = v`: update in place if the key exists, else
append (JS insertion-order semantics). -/
def objSet : JsObj → String → JsVal → JsObj
  | [], k, v => [(k, v)]
  | (k', v') :: rest, k, v =>
    if k' = k then (k, v) :: rest else (k', v') :: objSet rest k v

/-- A heap of JS objects: addresses below `size` are live; `alloc`
hands out the next address. -/
structure Heap where
  size : Nat
  mem : Nat → JsObj

/-- Allocate a fresh object. -/
def Heap.alloc (h : Heap) (o : JsObj) : Heap × Nat :=
  (⟨h.size + 1, fun i => if i = h.size then o else h.mem i⟩, h.size)

/-- Field assignment on the object at address `a`. -/
def Heap.setField (h : Heap) (a : Nat) (k : String) (v : JsVal) : Heap :=
  ⟨h.size, fun i => if i = a then objSet (h.mem i) k v else h.mem i⟩

/-- Undefined reads default to `null`; the fields this model reads always
exist on a well-formed properties object. -/
def objGetD (o : JsObj) (k : String) : JsVal :=
  (objGet o k).getD .vnull

/-- `CreateJobProperties.prototype.toObject` on the properties object at
`p`: allocate the inner `data` literal (whose `start_from`/`run_every`
fields alias the stored references) and the outer `{ id, data }` literal,
returning the outer address. -/
def propsToObject (h : Heap) (p : Nat) : Heap × Nat :=
  let props := h.mem p
  let hd := h.alloc
    [("start_from", objGetD props "startFrom"), ("run_every", objGetD props "runEvery")]
  let ht := hd.1.alloc [("id", objGetD props "customId"), ("data", .vref hd.2)]
  ht

/-- The jobs collection URL of the source. -/
def jobsUrl : String := "https://clocktick.dev/api/v1/jobs"

/-- Percent-encoding of one byte, uppercase hex as `encodeURIComponent`
produces. -/
def pctByte (n : Nat) : List Char :=
  let hi := n / 16
  let lo := n % 16
  let dig := fun m => if m < 10 then Char.ofNat (48 + m) else Char.ofNat (55 + m)
  ['%', dig hi, dig lo]

/-- UTF-8 bytes of a character. -/
def utf8Bytes (c : Char) : List Nat :=
  let n := c.toNat
  if n < 0x80 then [n]
  else if n < 0x800 then [0xC0 + n / 0x40, 0x80 + n % 0x40]
  else if n < 0x10000 then
    [0xE0 + n / 0x1000, 0x80 + n / 0x40 % 0x40, 0x80 + n % 0x40]
  else
    [0xF0 + n / 0x40000, 0x80 + n / 0x1000 % 0x40, 0x80 + n / 0x40 % 0x40,
      0x80 + n % 0x40]

/-- The characters `encodeURIComponent` leaves unescaped:
`A–Z a–z 0–9 - _ . ! ~ * ' ( )`. -/
def uriUnreserved (c : Char) : Bool :=
  c.isAlpha || c.isDigit ||
    c ∈ ['-', '_', '.', '!', '~', '*', Char.ofNat 39, '(', ')']

/-- `encodeURIComponent(s)`. -/
def encodeURIComponent (s : String) : String :=
  List.asString (s.data.foldr
    (fun c acc => (if uriUnreserved c then [c] else (utf8Bytes c).flatMap pctByte) ++ acc) [])

/-- The body of the async function returned by `apiHandlerBuilder(apiKey,
encryptionKey, jobType, endpoint)`, up to the POST: `obj = props.toObject()`,
the custom-id URL selection, then the three field writes into `obj.data`.
The encrypted payload string is injected (it is `encrypt(key,
encode(args))`, whose internals C6 covers).  Returns the updated heap, the
URL, and the address of the `data` object that is serialized and sent. -/
def apiHandlerCall (h : Heap) (p : Nat) (endpoint encData jobType : String) :
    Heap × String × Nat :=
  let ht := propsToObject h p
  let h1 := ht.1
  let top := h1.mem ht.2
  let url :=
    match objGetD top "id" with
    | .vstr s => if s = "" then jobsUrl else jobsUrl ++ "/" ++ encodeURIComponent s
    | _ => jobsUrl
  let dataA :=
    match objGetD top "data" with
    | .vref a => a
    | _ => 0
  let h2 := h1.setField dataA "endpoint_id" (.vstr endpoint)
  let h3 := h2.setField dataA "encrypted_data" (.vstr encData)
  let h4 := h3.setField dataA "job_type" (.vstr jobType)
  (h4, url, dataA)

/-! ## `deleteJob` and `errorHandledFetch` -/

/-- The injected HTTP response `fetch` resolves with. -/
structure HttpResp where
  ok : Bool
  appErrorHeader : Option String
  errType : String
  errReasons : List String
  status : Nat

/-- Errors thrown by the outbound operations. -/
inductive JsErr where
  | invalidJobId
  | apiError (type : String) (reasons : List String)
  | httpError (status : Nat)
deriving DecidableEq, Repr

/-- One call issued to `fetch`. -/
structure FetchCall where
  url : String
  method : String
  hasBody : Bool
deriving DecidableEq, Repr

/-- `errorHandledFetch(url, apiKey, method, body)`: one `fetch`, then
classify a non-2xx response by the `X-Is-Application-Error` header.
Returns the outcome and the calls issued. -/
def errorHandledFetch (resp : HttpResp) (url method : String) (hasBody : Bool) :
    Except JsErr Unit × List FetchCall :=
  let call : FetchCall := ⟨url, method, hasBody⟩
  if resp.ok then (.ok (), [call])
  else if resp.appErrorHeader = some "true" then
    (.error (.apiError resp.errType resp.errReasons), [call])
  else (.error (.httpError resp.status), [call])

/-- `deleteJob(apiKey, jobId)`: reject an empty id locally (the
`typeof jobId !== "string"` half of the guard cannot fire on a `String`),
otherwise DELETE the URL-encoded job URL. -/
def deleteJob (resp : HttpResp) (jobId : String) : Except JsErr Unit × List FetchCall :=
  if jobId = "" then (.error .invalidJobId, [])
  else errorHandledFetch resp (jobsUrl ++ "/" ++ encodeURIComponent jobId) "DELETE" false

/-! ## Model validation against the repository's own tests

Before settling the claims, the embedding is checked against the
behaviours the repository's test suite pins down, to confirm the
translation reproduces them. -/

/-- A handler that returns normally (used by validation and claims). -/
def okBehV : List Nat → Except Unit Unit := fun _ => .ok ()

/-- A base64 decoder that accepts everything. -/
def anyB64d : String → Option (List Nat) := fun _ => some []

/-- An AEAD open that accepts everything. -/
def anyOpen : Unit → List Nat → List Nat → Option (List Nat) := fun _ _ _ => some []

/-- A msgpack decoder producing the empty argument list. -/
def anyDec : List Nat → Option (List Nat) := fun _ => some []

/-- The tree of the `createRouter` "multiple levels" test:
`{ test1, test2: customEndpoint("test2_endpoint", { test3,
test4: customEndpoint("test4_endpoint", fn) }) }`. -/
def multiLevelTree : JEntries :=
  .cons "test1" (.leaf 1 0 okBehV)
    (.cons "test2" (.wrapped "test2_endpoint"
      (.node (.cons "test3" (.leaf 1 1 okBehV)
        (.cons "test4" (.wrapped "test4_endpoint" (.leaf 1 2 okBehV)) .nil)))) .nil)

/-- The model reproduces the repo's "multiple levels" test: `test1` gets
the default endpoint, `test2.test3` the outer override, `test2.test4` the
inner override, each with the full dotted path (the wrappers there sit in
tail position, so the key-stack slip of C1 stays invisible). -/
theorem write_matches_multi_level_test :
    createRouterRegs "default_endpoint_id" multiLevelTree =
      [⟨["test1"], "test1", "default_endpoint_id"⟩,
       ⟨["test2", "test3"], "test2.test3", "test2_endpoint"⟩,
       ⟨["test2", "test4"], "test2.test4", "test4_endpoint"⟩] := by
  decide

/-- A top-level wrapper followed by a sibling is harmless: the stray
`keyStack.pop()` pops an empty stack (a JS no-op, like `dropLast []`),
so both leaves keep their one-segment paths.  The C1 slip needs depth ≥ 1. -/
theorem write_top_level_wrapper_sibling_ok :
    createRouterRegs "D"
      (.cons "a" (.wrapped "E" (.leaf 1 0 okBehV))
        (.cons "b" (.leaf 1 1 okBehV) .nil)) =
      [⟨["a"], "a", "E"⟩, ⟨["b"], "b", "D"⟩] := by
  decide

/-- `encodeURIComponent` reproduces the job-URL encoding of the repo's
`deleteJob` test: id `"%%%&@"` encodes to `"%25%25%25%26%40"`. -/
theorem encodeURIComponent_matches_test :
    encodeURIComponent "%%%&@" = "%25%25%25%26%40" := by
  decide

/-- A verifier accepting exactly the signature bytes of the hex string
`"bb"`, standing in for ed25519 in the `httpRoute` test replication. -/
def bbVerify : List Nat → String → List Nat → Bool := fun sgB _ _ => sgB == [187]

/-- The router tree of the `httpRoute` test:
`{ test1, test2: { test3: customEndpoint("test3_endpoint", { test4 }) } }`. -/
def httpTestTree : JEntries :=
  .cons "test1" (.leaf 1 1 okBehV)
    (.cons "test2" (.node
      (.cons "test3" (.wrapped "test3_endpoint"
        (.node (.cons "test4" (.leaf 1 2 okBehV) .nil))) .nil)) .nil)

/-- The model reproduces the repo's `httpRoute` test outcomes: 204 for
`test1` and for `test2.test3.test4` (resolution crosses the wrapper
transparently), 400 for an undecryptable payload, 401 for a bad
signature, 404 for an unregistered route. -/
theorem httpRoute_matches_repo_test :
    httpRouteReq bbVerify 10
      (fun _ => some (some "test1", some "x:y")) anyB64d anyOpen anyDec () "aa"
      httpTestTree ⟨some "bb", some "10", "B"⟩ = (.resp 204, [1])
    ∧ httpRouteReq bbVerify 10
        (fun _ => some (some "test2.test3.test4", some "x:y")) anyB64d anyOpen
        anyDec () "aa" httpTestTree ⟨some "bb", some "10", "B"⟩ = (.resp 204, [2])
    ∧ httpRouteReq bbVerify 10
        (fun _ => some (some "test1", some "bad")) anyB64d anyOpen anyDec () "aa"
        httpTestTree ⟨some "bb", some "10", "B"⟩ = (.resp 400, [])
    ∧ httpRouteReq bbVerify 10
        (fun _ => some (some "test1", some "x:y")) anyB64d anyOpen anyDec () "aa"
        httpTestTree ⟨some "bad", some "10", "B"⟩ = (.resp 401, [])
    ∧ httpRouteReq bbVerify 10
        (fun _ => some (some "test69", some "x:y")) anyB64d anyOpen anyDec () "aa"
        httpTestTree ⟨some "bb", some "10", "B"⟩ = (.resp 404, []) := by
  decide

/-! ## Claims -/

/-- A handler that returns normally. -/
def okBeh : List Nat → Except Unit Unit := fun _ => .ok ()

/-- A handler that throws. -/
def throwBeh : List Nat → Except Unit Unit := fun _ => .error ()

/-- The C1 failing input: the tree `{ a: { b: customEndpoint("E2", f), c: g } }`
with default endpoint `"D"` — a plain sibling following a wrapped entry one
level below the root. -/
def c1FailTree : JEntries :=
  .cons "a" (.node
    (.cons "b" (.wrapped "E2" (.leaf 1 0 okBeh))
      (.cons "c" (.leaf 1 1 okBeh) .nil))) .nil

/-- C1: registering the failing tree attaches `job_type = "c"` (not `"a.c"`)
to the scheduling function at `router.a.c`: the `customEndpoint` branch of
`_write` recurses without pushing a key, so the recursive call's trailing
`keyStack.pop()` removes the caller's `"a"`, truncating the dot-joined path
of every later sibling.  The wrapped leaf itself still gets the correct
path `"a.b"` with endpoint `"E2"`. -/
theorem claimC1_keyStack_slip :
    createRouterRegs "D" c1FailTree =
      [⟨["a", "b"], "a.b", "E2"⟩, ⟨["a", "c"], "c", "D"⟩]
    ∧ ¬ (createRouterRegs "D" c1FailTree).map Reg.jobType = ["a.b", "a.c"] := by
  decide

/-- C6: decrypting an envelope produced by `encrypt` with the same key
recovers the plaintext.  The platform collaborators are constrained only
where the source relies on them: base64 decoding inverts encoding on the
two halves, base64 output is non-empty and colon-free (its alphabet has
no `:`), and the AEAD opens what it sealed under the same key and IV. -/
theorem claimC6_roundtrip {K : Type} (b64e : List Nat → String)
    (b64d : String → Option (List Nat))
    (sealA : K → List Nat → List Nat → List Nat)
    (openA : K → List Nat → List Nat → Option (List Nat))
    (key : K) (iv p : List Nat)
    (hivd : b64d (b64e iv) = some iv)
    (hctd : b64d (b64e (sealA key iv p)) = some (sealA key iv p))
    (hopen : openA key iv (sealA key iv p) = some p)
    (hivne : b64e iv ≠ "") (hctne : b64e (sealA key iv p) ≠ "")
    (hivnc : ':' ∉ (b64e iv).data) (hctnc : ':' ∉ (b64e (sealA key iv p)).data) :
    decryptEnvelope b64d openA key (encryptEnvelope b64e sealA key iv p) = some p := by
  unfold encryptEnvelope decryptEnvelope
  rw [jsSplit_colon_join _ _ hivnc hctnc]
  simp [hivne, hctne, hivd, hctd, hopen]

/-- A toy byte-to-text codec for the C6 witness: one letter per byte. -/
def c6Enc : List Nat → String := fun bs => List.asString (bs.map (fun n => Char.ofNat (65 + n)))

/-- Its decoder, defined at the two strings the witness needs. -/
def c6Dec : String → Option (List Nat) := fun s =>
  if s = "AB" then some [0, 1] else if s = "ABF" then some [0, 1, 5] else none

/-- A toy AEAD for the C6 witness: seal prepends the IV, open strips it. -/
def c6Seal : Unit → List Nat → List Nat → List Nat := fun _ iv p => iv ++ p

/-- The matching open operation. -/
def c6Open : Unit → List Nat → List Nat → Option (List Nat) :=
  fun _ iv c => some (c.drop iv.length)

/-- C6 witness: the round trip at plaintext `[5]`, IV `[0, 1]`. -/
theorem claimC6_roundtrip_witness :
    decryptEnvelope c6Dec c6Open () (encryptEnvelope c6Enc c6Seal () [0, 1] [5]) =
      some [5] :=
  claimC6_roundtrip c6Enc c6Dec c6Seal c6Open () [0, 1] [5]
    (by decide) (by decide) (by decide) (by decide) (by decide) (by decide) (by decide)

/-- Per-field characterization of a chained call sequence. -/
theorem DeltaBuilder.calls_toObject (cs : List (TimeUnit × Int)) (d : DeltaBuilder) :
    (d.calls cs).toObject =
      ⟨d.years + unitTotal .years cs, d.months + unitTotal .months cs,
       d.days + unitTotal .days cs, d.hours + unitTotal .hours cs,
       d.minutes + unitTotal .minutes cs, d.seconds + unitTotal .seconds cs⟩ := by
  induction cs generalizing d with
  | nil => simp [DeltaBuilder.calls, DeltaBuilder.toObject, unitTotal]
  | cons c cs ih =>
    obtain ⟨u, n⟩ := c
    have hstep : d.calls ((u, n) :: cs) = (d.call (u, n)).calls cs := rfl
    rw [hstep, ih]
    cases u <;>
      simp [DeltaBuilder.call, unitTotal, List.filter_cons, DeltaBody.mk.injEq] <;>
      omega

/-- C8: each field of the delta a call sequence accumulates is the sum of
the values passed to that unit's method; the result is invariant under
reordering of the calls; and the spec's concrete example
`Delta().years(1).months(2).years(1)` yields `{2, 2, 0, 0, 0, 0}`. -/
theorem claimC8_delta_accumulation :
    (∀ cs : List (TimeUnit × Int),
      (DeltaBuilder.init.calls cs).toObject =
        ⟨unitTotal .years cs, unitTotal .months cs, unitTotal .days cs,
         unitTotal .hours cs, unitTotal .minutes cs, unitTotal .seconds cs⟩)
    ∧ (∀ cs cs' : List (TimeUnit × Int), cs.Perm cs' →
        (DeltaBuilder.init.calls cs).toObject = (DeltaBuilder.init.calls cs').toObject)
    ∧ (DeltaBuilder.init.calls [(.years, 1), (.months, 2), (.years, 1)]).toObject =
        ⟨2, 2, 0, 0, 0, 0⟩ := by
  have hchar : ∀ cs : List (TimeUnit × Int),
      (DeltaBuilder.init.calls cs).toObject =
        ⟨unitTotal .years cs, unitTotal .months cs, unitTotal .days cs,
         unitTotal .hours cs, unitTotal .minutes cs, unitTotal .seconds cs⟩ := by
    intro cs
    rw [DeltaBuilder.calls_toObject]
    simp [DeltaBuilder.init]
  refine ⟨hchar, ?_, by decide⟩
  intro cs cs' hperm
  have htot : ∀ u, unitTotal u cs = unitTotal u cs' := by
    intro u
    exact List.Perm.sum_eq ((hperm.filter _).map _)
  rw [hchar, hchar, htot, htot, htot, htot, htot, htot]

/-- C9: `deleteJob` with an empty job id fails locally with the
invalid-id error and issues no HTTP calls; with a non-empty id it issues
exactly one DELETE to the jobs URL extended with the URL-encoded id,
whatever the response. -/
theorem claimC9_deleteJob (resp : HttpResp) (jobId : String) :
    (jobId = "" → deleteJob resp jobId = (.error .invalidJobId, []))
    ∧ (jobId ≠ "" →
        (deleteJob resp jobId).2 =
          [⟨jobsUrl ++ "/" ++ encodeURIComponent jobId, "DELETE", false⟩]) := by
  constructor
  · intro h
    simp [deleteJob, h]
  · intro h
    rw [deleteJob, if_neg h]
    unfold errorHandledFetch
    split
    · rfl
    · split
      · rfl
      · rfl

/-- C9 witness: an empty id is rejected with zero calls; the id `"a b"`
issues one DELETE to `.../jobs/a%20b`. -/
theorem claimC9_deleteJob_witness :
    (deleteJob ⟨true, none, "", [], 200⟩ "" = (.error .invalidJobId, []))
    ∧ (deleteJob ⟨true, none, "", [], 200⟩ "a b").2 =
        [⟨"https://clocktick.dev/api/v1/jobs/a%20b", "DELETE", false⟩] := by
  refine ⟨(claimC9_deleteJob ⟨true, none, "", [], 200⟩ "").1 rfl, ?_⟩
  rw [(claimC9_deleteJob ⟨true, none, "", [], 200⟩ "a b").2 (by decide)]
  decide

/-! ### Pipeline claims

Shared concrete ingredients for counterexamples and witnesses: a verifier
that accepts everything (the signature is valid), trivial decode
collaborators, and a single-handler tree. -/

/-- An ed25519 verifier that accepts every signature. -/
def allVerify : List Nat → String → List Nat → Bool := fun _ _ _ => true

/-- A body parser returning `type: "t"`, `encrypted_data: "x:y"`. -/
def okParse : String → Option (Option String × Option String) :=
  fun _ => some (some "t", some "x:y")

/-- C2 counterexample input: a fully valid request whose handler throws
(tag 7).  The pipeline's `await fn(...data)` has no surrounding
`try`/`catch`, so the exception escapes the request function: the outcome
is `thrown`, not an HTTP 500 response. -/
theorem claimC2_counterexample :
    httpRouteReq allVerify 10 okParse anyB64d anyOpen anyDec () "aa"
      (.cons "t" (.leaf 0 7 throwBeh) .nil) ⟨some "bb", some "10", "B"⟩ =
      (.thrown, [7])
    ∧ Outcome.thrown ≠ Outcome.resp 500 := by
  constructor
  · rfl
  · decide

/-- C2 amended: when an authenticated, decryptable request resolves to a
handler and that handler throws, the exception propagates out of the
request function (no response, 500 or otherwise, is produced), after the
handler has been invoked. -/
theorem claimC2_handler_throw {K : Type}
    {verify : List Nat → String → List Nat → Bool} {now : Int}
    {parseBody : String → Option (Option String × Option String)}
    {b64d : String → Option (List Nat)}
    {openA : K → List Nat → List Nat → Option (List Nat)}
    {msgpackDec : List Nat → Option (List Nat)}
    {key : K} {publicKey : String} {fns : JEntries} {req : InboundReq}
    {ty ed : String} {bs args : List Nat} {arity tag : Nat}
    {beh : List Nat → Except Unit Unit}
    (hns : isStale now req.tsHeader = false)
    (hv : verifySignatureM verify publicKey (tsCoerce req.tsHeader ++ req.body)
      req.sigHeader = some true)
    (hp : parseBody req.body = some (some ty, some ed))
    (hd : decryptEnvelope b64d openA key ed = some bs)
    (hm : msgpackDec bs = some args)
    (hr : resolveLoop (.node fns) (jsSplit '.' ty) = some (.leaf arity tag beh))
    (hb : beh args = .error ()) :
    httpRouteReq verify now parseBody b64d openA msgpackDec key publicKey fns req =
      (.thrown, [tag]) := by
  unfold httpRouteReq
  rw [hns]
  simp only [Bool.false_eq_true, if_false, hv, hp, hd, hm, hr, hb]

/-- C2 witness: the amended theorem applied to the counterexample input. -/
theorem claimC2_handler_throw_witness :
    httpRouteReq allVerify 10 okParse anyB64d anyOpen anyDec () "aa"
      (.cons "t" (.leaf 0 7 throwBeh) .nil) ⟨some "bb", some "10", "B"⟩ =
      (.thrown, [7]) :=
  claimC2_handler_throw rfl rfl rfl rfl rfl rfl rfl

/-- C3 counterexample input: `now = 1000`, timestamp `"1301"` (301 seconds
in the future), valid signature, decryptable body, registered handler.
The claim requires a stale rejection (`|now - ts| > 300`); the code
computes the signed difference `now - ts = -301`, which is not `> 300`,
and dispatches normally with a 204. -/
theorem claimC3_counterexample :
    httpRouteReq allVerify 1000 okParse anyB64d anyOpen anyDec () "aa"
      (.cons "t" (.leaf 0 5 okBeh) .nil) ⟨some "bb", some "1301", "B"⟩ =
      (.resp 204, [5])
    ∧ Outcome.resp 204 ≠ Outcome.resp 401 := by
  constructor
  · rfl
  · decide

/-- C3 amended: the staleness check is one-sided.  A request whose
timestamp parses to `rt` with `now - rt > 300` (more than 300 seconds in
the past) is rejected 401 before any other processing — even when the
signature would verify; a request with `now - rt ≤ 300` (including one
arbitrarily far in the future) is never rejected as stale and, when the
rest of the pipeline succeeds, is dispatched with a 204. -/
theorem claimC3_staleness {K : Type}
    {verify : List Nat → String → List Nat → Bool} {now : Int}
    {parseBody : String → Option (Option String × Option String)}
    {b64d : String → Option (List Nat)}
    {openA : K → List Nat → List Nat → Option (List Nat)}
    {msgpackDec : List Nat → Option (List Nat)}
    {key : K} {publicKey : String} {fns : JEntries} {req : InboundReq}
    {rt : Int}
    (hts : jsParseInt10 (tsCoerce req.tsHeader) = some rt) :
    (now - rt > 300 →
      httpRouteReq verify now parseBody b64d openA msgpackDec key publicKey fns req =
        (.resp 401, []))
    ∧ (∀ (ty ed : String) (bs args : List Nat) (arity tag : Nat)
        (beh : List Nat → Except Unit Unit),
        ¬ now - rt > 300 →
        verifySignatureM verify publicKey (tsCoerce req.tsHeader ++ req.body)
          req.sigHeader = some true →
        parseBody req.body = some (some ty, some ed) →
        decryptEnvelope b64d openA key ed = some bs →
        msgpackDec bs = some args →
        resolveLoop (.node fns) (jsSplit '.' ty) = some (.leaf arity tag beh) →
        beh args = .ok () →
        httpRouteReq verify now parseBody b64d openA msgpackDec key publicKey fns req =
          (.resp 204, [tag])) := by
  constructor
  · intro hgt
    unfold httpRouteReq
    have : isStale now req.tsHeader = true := by
      unfold isStale
      rw [hts]
      simpa using hgt
    rw [this]
    simp
  · intro ty ed bs args arity tag beh hle hv hp hd hm hr hb
    unfold httpRouteReq
    have : isStale now req.tsHeader = false := by
      unfold isStale
      rw [hts]
      simpa using hle
    rw [this]
    simp only [Bool.false_eq_true, if_false, hv, hp, hd, hm, hr, hb]

/-- C3 witness: both directions at concrete inputs — a timestamp 301
seconds in the past is rejected 401; one 301 seconds in the future is
accepted and dispatched 204. -/
theorem claimC3_staleness_witness :
    httpRouteReq allVerify 1000 okParse anyB64d anyOpen anyDec () "aa"
      (.cons "t" (.leaf 0 5 okBeh) .nil) ⟨some "bb", some "699", "B"⟩ =
      (.resp 401, [])
    ∧ httpRouteReq allVerify 1000 okParse anyB64d anyOpen anyDec () "aa"
        (.cons "t" (.leaf 0 5 okBeh) .nil) ⟨some "bb", some "1301", "B"⟩ =
        (.resp 204, [5]) :=
  ⟨(@claimC3_staleness Unit allVerify 1000 okParse anyB64d anyOpen anyDec () "aa"
      (.cons "t" (.leaf 0 5 okBeh) .nil) ⟨some "bb", some "699", "B"⟩ 699
      (by decide)).1 (by decide),
   (@claimC3_staleness Unit allVerify 1000 okParse anyB64d anyOpen anyDec () "aa"
      (.cons "t" (.leaf 0 5 okBeh) .nil) ⟨some "bb", some "1301", "B"⟩ 1301
      (by decide)).2 "t" "x:y" [] [] 0 5 okBeh (by decide)
     rfl rfl rfl rfl rfl rfl⟩

/-- C4 counterexample input: valid signature and fresh timestamp, but a
request body `JSON.parse` cannot parse.  `JSON.parse(body)` sits outside
the `try` block, so the exception escapes: the outcome is `thrown`, not a
400-class response. -/
theorem claimC4_counterexample :
    httpRouteReq allVerify 10 (fun _ => none) anyB64d anyOpen anyDec () "aa"
      (.cons "t" (.leaf 0 3 okBeh) .nil) ⟨some "bb", some "10", "not json"⟩ =
      (.thrown, [])
    ∧ Outcome.thrown ≠ Outcome.resp 400 := by
  constructor
  · rfl
  · decide

/-- C4 amended: after authentication, a failure to decrypt (or
msgpack-decode) `encrypted_data` yields a 400 response and no handler is
invoked — but a request body that `JSON.parse` rejects causes an uncaught
exception rather than a 400-class response (and still no handler runs). -/
theorem claimC4_bad_body {K : Type}
    {verify : List Nat → String → List Nat → Bool} {now : Int}
    {parseBody : String → Option (Option String × Option String)}
    {b64d : String → Option (List Nat)}
    {openA : K → List Nat → List Nat → Option (List Nat)}
    {msgpackDec : List Nat → Option (List Nat)}
    {key : K} {publicKey : String} {fns : JEntries} {req : InboundReq}
    (hns : isStale now req.tsHeader = false)
    (hv : verifySignatureM verify publicKey (tsCoerce req.tsHeader ++ req.body)
      req.sigHeader = some true) :
    (∀ ty? (ed : String),
      parseBody req.body = some (ty?, some ed) →
      decryptEnvelope b64d openA key ed = none →
      httpRouteReq verify now parseBody b64d openA msgpackDec key publicKey fns req =
        (.resp 400, []))
    ∧ (parseBody req.body = none →
        httpRouteReq verify now parseBody b64d openA msgpackDec key publicKey fns req =
          (.thrown, [])) := by
  constructor
  · intro ty? ed hp hd
    unfold httpRouteReq
    rw [hns]
    simp only [Bool.false_eq_true, if_false, hv, hp, hd]
  · intro hp
    unfold httpRouteReq
    rw [hns]
    simp only [Bool.false_eq_true, if_false, hv, hp]

/-- C4 witness: a payload whose envelope has no colon fails decryption
with a 400 and no handler call; an unparseable body ends in `thrown`. -/
theorem claimC4_bad_body_witness :
    httpRouteReq allVerify 10 (fun _ => some (some "t", some "nocolon"))
      anyB64d anyOpen anyDec () "aa"
      (.cons "t" (.leaf 0 3 okBeh) .nil) ⟨some "bb", some "10", "B"⟩ =
      (.resp 400, [])
    ∧ httpRouteReq allVerify 10 (fun _ => none) anyB64d anyOpen anyDec () "aa"
        (.cons "t" (.leaf 0 3 okBeh) .nil) ⟨some "bb", some "10", "not json"⟩ =
        (.thrown, []) :=
  ⟨(@claimC4_bad_body Unit allVerify 10 (fun _ => some (some "t", some "nocolon"))
      anyB64d anyOpen anyDec () "aa" (.cons "t" (.leaf 0 3 okBeh) .nil)
      ⟨some "bb", some "10", "B"⟩ rfl rfl).1 (some "t") "nocolon" rfl rfl,
   (@claimC4_bad_body Unit allVerify 10 (fun _ => none) anyB64d anyOpen anyDec ()
      "aa" (.cons "t" (.leaf 0 3 okBeh) .nil)
      ⟨some "bb", some "10", "not json"⟩ rfl rfl).2 rfl⟩

/-- C5 counterexample input: the signature header is absent (timestamp
present and fresh).  `fromHex(null)` calls `.match` on `null` and throws
outside any `try`, so the pipeline produces no response at all — there is
no missing-credentials rejection. -/
theorem claimC5_counterexample :
    httpRouteReq allVerify 10 okParse anyB64d anyOpen anyDec () "aa"
      (.cons "t" (.leaf 0 4 okBeh) .nil) ⟨none, some "10", "B"⟩ =
      (.thrown, [])
    ∧ Outcome.thrown ≠ Outcome.resp 401 := by
  constructor
  · rfl
  · decide

/-- C5 amended: there is no missing-credentials path.  A request without
the signature header makes the hex decoder throw, so the request function
raises an uncaught exception (producing no response); a request without
the timestamp header is processed with the message `"null" + body` and,
when the signature fails to verify over it, is rejected with the generic
401.  In neither case is a handler dispatched. -/
theorem claimC5_missing_headers {K : Type}
    {verify : List Nat → String → List Nat → Bool} {now : Int}
    {parseBody : String → Option (Option String × Option String)}
    {b64d : String → Option (List Nat)}
    {openA : K → List Nat → List Nat → Option (List Nat)}
    {msgpackDec : List Nat → Option (List Nat)}
    {key : K} {publicKey : String} {fns : JEntries} {req : InboundReq} :
    (req.sigHeader = none → isStale now req.tsHeader = false →
      httpRouteReq verify now parseBody b64d openA msgpackDec key publicKey fns req =
        (.thrown, []))
    ∧ (∀ sg pkB sgB, req.tsHeader = none → req.sigHeader = some sg →
        fromHexStr publicKey = some pkB → fromHexStr sg = some sgB →
        verify sgB ("null" ++ req.body) pkB = false →
        httpRouteReq verify now parseBody b64d openA msgpackDec key publicKey fns req =
          (.resp 401, [])) := by
  constructor
  · intro hsig hns
    unfold httpRouteReq
    rw [hns]
    unfold verifySignatureM
    rw [hsig]
    rcases hpk : fromHexStr publicKey with _ | pkB <;> simp
  · intro sg pkB sgB hts hsig hpk hsg hv
    have hstale : isStale now req.tsHeader = false := by
      unfold isStale
      rw [hts]
      rfl
    have hvs : verifySignatureM verify publicKey (tsCoerce req.tsHeader ++ req.body)
        req.sigHeader = some false := by
      unfold verifySignatureM
      simp [hpk, hsig, hsg, hts, tsCoerce, hv]
    unfold httpRouteReq
    rw [hstale]
    simp [hvs]

/-- C5 witness: the two header-absence scenarios at concrete inputs, with
a verifier that rejects everything for the missing-timestamp half. -/
theorem claimC5_missing_headers_witness :
    httpRouteReq allVerify 10 okParse anyB64d anyOpen anyDec () "aa"
      (.cons "t" (.leaf 0 4 okBeh) .nil) ⟨none, some "10", "B"⟩ =
      (.thrown, [])
    ∧ httpRouteReq (fun _ _ _ => false) 10 okParse anyB64d anyOpen anyDec () "aa"
        (.cons "t" (.leaf 0 4 okBeh) .nil) ⟨some "bb", none, "B"⟩ =
        (.resp 401, []) :=
  ⟨(@claimC5_missing_headers Unit allVerify 10 okParse anyB64d anyOpen anyDec ()
      "aa" (.cons "t" (.leaf 0 4 okBeh) .nil) ⟨none, some "10", "B"⟩).1 rfl rfl,
   (@claimC5_missing_headers Unit (fun _ _ _ => false) 10 okParse anyB64d anyOpen
      anyDec () "aa" (.cons "t" (.leaf 0 4 okBeh) .nil)
      ⟨some "bb", none, "B"⟩).2 "bb" [170] [187] rfl rfl rfl rfl rfl⟩

/-- C7 counterexample input: the registered handler declares arity 5 (its
JS `fn.length`), the decoded argument list is empty, yet dispatch invokes
the handler (tag 9 recorded) and answers 204 — there is no arity
comparison and no `ArityMismatch` outcome anywhere in the pipeline. -/
theorem claimC7_counterexample :
    httpRouteReq allVerify 10 okParse anyB64d anyOpen anyDec () "aa"
      (.cons "t" (.leaf 5 9 okBeh) .nil) ⟨some "bb", some "10", "B"⟩ =
      (.resp 204, [9])
    ∧ ([9] : List Nat) ≠ [] := by
  constructor
  · rfl
  · decide

/-- C7 amended: the decoded argument count is never compared to the
leaf's declared arity: even when the two differ, the handler is invoked
with the decoded arguments (JS spreads them, padding or truncating
implicitly) and dispatch reports success. -/
theorem claimC7_no_arity_check {K : Type}
    {verify : List Nat → String → List Nat → Bool} {now : Int}
    {parseBody : String → Option (Option String × Option String)}
    {b64d : String → Option (List Nat)}
    {openA : K → List Nat → List Nat → Option (List Nat)}
    {msgpackDec : List Nat → Option (List Nat)}
    {key : K} {publicKey : String} {fns : JEntries} {req : InboundReq}
    {ty ed : String} {bs args : List Nat} {arity tag : Nat}
    {beh : List Nat → Except Unit Unit}
    (hns : isStale now req.tsHeader = false)
    (hv : verifySignatureM verify publicKey (tsCoerce req.tsHeader ++ req.body)
      req.sigHeader = some true)
    (hp : parseBody req.body = some (some ty, some ed))
    (hd : decryptEnvelope b64d openA key ed = some bs)
    (hm : msgpackDec bs = some args)
    (hr : resolveLoop (.node fns) (jsSplit '.' ty) = some (.leaf arity tag beh))
    (hmis : args.length ≠ arity)
    (hb : beh args = .ok ()) :
    httpRouteReq verify now parseBody b64d openA msgpackDec key publicKey fns req =
      (.resp 204, [tag]) := by
  unfold httpRouteReq
  rw [hns]
  simp only [Bool.false_eq_true, if_false, hv, hp, hd, hm, hr, hb]

/-- C7 witness: the amended theorem at the arity-5 leaf with zero decoded
arguments. -/
theorem claimC7_no_arity_check_witness :
    httpRouteReq allVerify 10 okParse anyB64d anyOpen anyDec () "aa"
      (.cons "t" (.leaf 5 9 okBeh) .nil) ⟨some "bb", some "10", "B"⟩ =
      (.resp 204, [9]) :=
  claimC7_no_arity_check rfl rfl rfl rfl rfl rfl (by decide) rfl

/-! ### C10: scheduling does not mutate the properties object -/

theorem apiHandlerCall_size (h : Heap) (p : Nat) (e x j : String) :
    (apiHandlerCall h p e x j).1.size = h.size + 2 := by
  simp [apiHandlerCall, propsToObject, Heap.alloc, Heap.setField]

theorem apiHandlerCall_mem_lt (h : Heap) (p : Nat) (e x j : String) (i : Nat)
    (hi : i < h.size) :
    (apiHandlerCall h p e x j).1.mem i = h.mem i := by
  have h1 : i ≠ h.size := by omega
  have h2 : i ≠ h.size + 1 := by omega
  simp [apiHandlerCall, propsToObject, Heap.alloc, Heap.setField, objGetD, objGet,
    h1, h2]

theorem apiHandlerCall_dataA (h : Heap) (p : Nat) (e x j : String) :
    (apiHandlerCall h p e x j).2.2 = h.size := by
  simp [apiHandlerCall, propsToObject, Heap.alloc, Heap.setField, objGetD, objGet]

theorem apiHandlerCall_data_obj (h : Heap) (p : Nat) (e x j : String) :
    (apiHandlerCall h p e x j).1.mem h.size =
      [("start_from", objGetD (h.mem p) "startFrom"),
       ("run_every", objGetD (h.mem p) "runEvery"),
       ("endpoint_id", .vstr e), ("encrypted_data", .vstr x),
       ("job_type", .vstr j)] := by
  have h1 : h.size ≠ h.size + 1 := by omega
  simp [apiHandlerCall, propsToObject, Heap.alloc, Heap.setField, objGetD, objGet,
    objSet, h1]

theorem apiHandlerCall_url (h : Heap) (p : Nat) (e x j : String) :
    (apiHandlerCall h p e x j).2.1 =
      (match objGetD (h.mem p) "customId" with
        | .vstr s => if s = "" then jobsUrl else jobsUrl ++ "/" ++ encodeURIComponent s
        | _ => jobsUrl) := by
  simp [apiHandlerCall, propsToObject, Heap.alloc, Heap.setField, objGetD, objGet]

/-- C10: a `CreateJobProperties` object can be reused across scheduling
calls.  Two successive calls on the same properties address leave every
pre-existing object (the properties record and the `start_from`/`run_every`
objects it references) untouched, compute the same URL (hence the same
custom id), and build their per-call `data` bodies with the same
`start_from` and `run_every` values: `toObject()` allocates a fresh record
each time and the handler's `endpoint_id`/`encrypted_data`/`job_type`
writes land only in that copy. -/
theorem claimC10_props_reuse (h : Heap) (p : Nat) (hp : p < h.size)
    (e1 x1 j1 e2 x2 j2 : String) :
    let r1 := apiHandlerCall h p e1 x1 j1
    let r2 := apiHandlerCall r1.1 p e2 x2 j2
    (∀ i, i < h.size → r2.1.mem i = h.mem i)
    ∧ r1.2.1 = r2.2.1
    ∧ objGet (r2.1.mem r1.2.2) "start_from" = some (objGetD (h.mem p) "startFrom")
    ∧ objGet (r2.1.mem r2.2.2) "start_from" = some (objGetD (h.mem p) "startFrom")
    ∧ objGet (r2.1.mem r1.2.2) "run_every" = some (objGetD (h.mem p) "runEvery")
    ∧ objGet (r2.1.mem r2.2.2) "run_every" = some (objGetD (h.mem p) "runEvery") := by
  intro r1 r2
  have hsz1 : r1.1.size = h.size + 2 := apiHandlerCall_size h p e1 x1 j1
  have hmemp : r1.1.mem p = h.mem p := apiHandlerCall_mem_lt h p e1 x1 j1 p hp
  have hframe : ∀ i, i < h.size → r2.1.mem i = h.mem i := by
    intro i hi
    have hi2 : i < r1.1.size := by omega
    rw [apiHandlerCall_mem_lt r1.1 p e2 x2 j2 i hi2,
      apiHandlerCall_mem_lt h p e1 x1 j1 i hi]
  refine ⟨hframe, ?_, ?_, ?_, ?_, ?_⟩
  · rw [apiHandlerCall_url h p e1 x1 j1, apiHandlerCall_url r1.1 p e2 x2 j2, hmemp]
  · have hd1 : r1.2.2 = h.size := apiHandlerCall_dataA h p e1 x1 j1
    have hlt : h.size < r1.1.size := by omega
    rw [hd1, apiHandlerCall_mem_lt r1.1 p e2 x2 j2 h.size hlt,
      apiHandlerCall_data_obj h p e1 x1 j1]
    simp [objGet]
  · have hd2 : r2.2.2 = r1.1.size := apiHandlerCall_dataA r1.1 p e2 x2 j2
    rw [hd2, apiHandlerCall_data_obj r1.1 p e2 x2 j2, hmemp]
    simp [objGet]
  · have hd1 : r1.2.2 = h.size := apiHandlerCall_dataA h p e1 x1 j1
    have hlt : h.size < r1.1.size := by omega
    rw [hd1, apiHandlerCall_mem_lt r1.1 p e2 x2 j2 h.size hlt,
      apiHandlerCall_data_obj h p e1 x1 j1]
    simp [objGet]
  · have hd2 : r2.2.2 = r1.1.size := apiHandlerCall_dataA r1.1 p e2 x2 j2
    rw [hd2, apiHandlerCall_data_obj r1.1 p e2 x2 j2, hmemp]
    simp [objGet]

/-- The C10 witness heap: a properties object at address 0 (no custom id,
`startFrom` referencing the object at address 1, no recurrence) and the
`start_from` payload object at address 1. -/
def c10Heap : Heap :=
  ⟨2, fun i =>
    if i = 0 then
      [("customId", .vnull), ("startFrom", .vref 1), ("runEvery", .vnull)]
    else if i = 1 then [("kind", .vstr "datetime")] else []⟩

/-- C10 witness: the reuse theorem at the concrete two-object heap. -/
theorem claimC10_props_reuse_witness :
    let r1 := apiHandlerCall c10Heap 0 "e1" "x1" "j1"
    let r2 := apiHandlerCall r1.1 0 "e2" "x2" "j2"
    (∀ i, i < c10Heap.size → r2.1.mem i = c10Heap.mem i)
    ∧ r1.2.1 = r2.2.1
    ∧ objGet (r2.1.mem r1.2.2) "start_from" = some (objGetD (c10Heap.mem 0) "startFrom")
    ∧ objGet (r2.1.mem r2.2.2) "start_from" = some (objGetD (c10Heap.mem 0) "startFrom")
    ∧ objGet (r2.1.mem r1.2.2) "run_every" = some (objGetD (c10Heap.mem 0) "runEvery")
    ∧ objGet (r2.1.mem r2.2.2) "run_every" = some (objGetD (c10Heap.mem 0) "runEvery") :=
  claimC10_props_reuse c10Heap 0 (by decide) "e1" "x1" "j1" "e2" "x2" "j2"

end Clocktick
